import Mathlib

/-!
Verification of the luna-ai core runtime: the dependency-injection
container (`src/luna/core/di.py`) and the async event bus
(`src/luna/core/events.py`), over the data model of
`src/luna/core/types.py`.

Python dicts are embedded as association lists (first binding wins on
lookup, as dict semantics are modelled by keeping at most one binding per
key via `alInsert`, which overwrites in place preserving insertion order,
as Python dicts do).  Async methods are embedded as pure state-passing
functions; `asyncio.Event` objects are modelled as entries in an explicit
flag heap so that Python object identity (a waiter holding a reference to
a flag object that was later dropped from the `_event_flags` dict) is
captured.  UUID generation is modelled by a freshness counter.
-/

namespace Luna

/-- Lookup in an association list (Python `d[k]` / `k in d`). -/
def alLookup {K V : Type} [DecidableEq K] (k : K) : List (K × V) → Option V
  | [] => none
  | (k', v) :: rest => if k' = k then some v else alLookup k rest

/-- Insert/overwrite in an association list, preserving insertion order of
existing keys and appending new keys at the end (Python `d[k] = v`). -/
def alInsert {K V : Type} [DecidableEq K] (k : K) (v : V) : List (K × V) → List (K × V)
  | [] => [(k, v)]
  | (k', v') :: rest => if k' = k then (k, v) :: rest else (k', v') :: alInsert k v rest

/-- `ServiceStatus` enum from `types.py`. -/
inductive ServiceStatus where
  | INITIALIZING
  | HEALTHY
  | DEGRADED
  | FAILED
  | SHUTDOWN
deriving DecidableEq, Repr

/-- `CorrelationId` frozen dataclass from `types.py`: wraps a string. -/
structure CorrelationId where
  value : String
deriving DecidableEq, Repr

/-- `Event` pydantic model from `types.py`.  UUIDs and datetimes are
embedded as `Nat`; the open `Dict[str, Any]` payload is embedded as an
association list of strings. -/
structure Event where
  id : Nat
  type : String
  timestamp : Nat
  correlation_id : Option CorrelationId
  payload : List (String × String)
deriving DecidableEq, Repr

/-- Pydantic `model_config` flags relevant here.  `Event` declares
`ConfigDict(arbitrary_types_allowed=True)`; `frozen` is not set, so it
keeps pydantic's default `False`. -/
structure ModelConfig where
  arbitrary_types_allowed : Bool
  frozen : Bool
deriving DecidableEq, Repr

/-- The `model_config` of `Event` in `types.py`. -/
def eventModelConfig : ModelConfig :=
  { arbitrary_types_allowed := true, frozen := false }

/-- Pydantic attribute assignment `e.type = v`: rejected with a
`ValidationError` when the model is frozen, performed otherwise. -/
def Event.assignType (e : Event) (v : String) : Except String Event :=
  if eventModelConfig.frozen then .error "ValidationError"
  else .ok { e with type := v }

/-! ## Dependency injection container (`di.py`) -/

/-- One parameter of a factory signature, as seen by
`inspect.signature` in `Container._create_instance`: its name, its
declared type (`none` embeds `inspect.Parameter.empty`), and its default
value if any. -/
structure FParam (K V : Type) where
  name : String
  ann : Option K
  default : Option V

/-- A factory registered in the container: its inspectable signature and
its body, which receives the resolved kwargs. -/
structure Factory (K V : Type) where
  params : List (FParam K V)
  build : List (String × V) → V

/-- `Container` state (`di.py`): factories, factory-built instance cache,
singletons, the ordered lifecycle registry, status.  `buildLog` is ghost
instrumentation recording each factory invocation (mirroring the
`logger.debug` on construction) so that single-construction can be
stated. -/
structure ContainerState (K V : Type) where
  factories : List (K × Factory K V)
  instances : List (K × V)
  singletons : List (K × V)
  services : List (String × V)
  status : ServiceStatus
  buildLog : List K

/-- A fresh container (`Container.__init__`). -/
def ContainerState.init (K V : Type) : ContainerState K V :=
  { factories := [], instances := [], singletons := [], services := []
    status := ServiceStatus.INITIALIZING, buildLog := [] }

/-- `Container.register_factory`. -/
def registerFactory {K V : Type} [DecidableEq K]
    (s : ContainerState K V) (k : K) (f : Factory K V) : ContainerState K V :=
  { s with factories := alInsert k f s.factories }

/-- `Container.register_singleton`. -/
def registerSingleton {K V : Type} [DecidableEq K]
    (s : ContainerState K V) (k : K) (v : V) : ContainerState K V :=
  { s with singletons := alInsert k v s.singletons }

/-- Errors raised by `Container.get`: the `ValueError` naming the
unregistered key, or exhaustion of the recursion budget (Python's
`RecursionError`, which is not a `ValueError` and hence is not caught by
`_create_instance`). -/
inductive DIErr (K : Type) where
  | noFactory (k : K)
  | outOfFuel
deriving DecidableEq, Repr

/-- The dependency-resolution loop of `Container._create_instance`: for
each parameter with a declared type (and not named `self`), the
recursive `self.get` (passed in as `getFn`) resolves it; a `ValueError`
from that `get` falls back to the parameter's default, or omits the
parameter with a logged warning.  A `RecursionError` (`outOfFuel`) is
not a `ValueError` and propagates. -/
def containerResolveParams {K V : Type}
    (getFn : ContainerState K V → K → Except (DIErr K) V × ContainerState K V)
    (s : ContainerState K V) :
    List (FParam K V) → Except (DIErr K) (List (String × V)) × ContainerState K V
  | [] => (.ok [], s)
  | p :: rest =>
    match p.ann with
    | none => containerResolveParams getFn s rest
    | some dep =>
      if p.name = "self" then containerResolveParams getFn s rest
      else
        match getFn s dep with
        | (.ok v, s') =>
          match containerResolveParams getFn s' rest with
          | (.ok kwargs, s'') => (.ok ((p.name, v) :: kwargs), s'')
          | (.error e, s'') => (.error e, s'')
        | (.error (.noFactory _), s') =>
          match p.default with
          | some d =>
            match containerResolveParams getFn s' rest with
            | (.ok kwargs, s'') => (.ok ((p.name, d) :: kwargs), s'')
            | (.error e, s'') => (.error e, s'')
          | none => containerResolveParams getFn s' rest
        | (.error .outOfFuel, s') => (.error .outOfFuel, s')

/-- `Container.get`: singleton, then instance cache, then error if no
factory, then (under the lock, after the double-check of the cache)
construction via `containerResolveParams` and the factory body, caching
the result and auto-registering it in the lifecycle registry when
`svcName` recognises it as a Service.  The fuel bounds the recursion
depth, as Python's recursion limit does. -/
def containerGet {K V : Type} [DecidableEq K] (svcName : V → Option String) :
    Nat → ContainerState K V → K → Except (DIErr K) V × ContainerState K V
  | 0, s, _ => (.error .outOfFuel, s)
  | fuel + 1, s, k =>
    match alLookup k s.singletons with
    | some v => (.ok v, s)
    | none =>
      match alLookup k s.instances with
      | some v => (.ok v, s)
      | none =>
        match alLookup k s.factories with
        | none => (.error (.noFactory k), s)
        | some f =>
          match alLookup k s.instances with
          | some v => (.ok v, s)
          | none =>
            match containerResolveParams (containerGet svcName fuel) s f.params with
            | (.error e, s') => (.error e, s')
            | (.ok kwargs, s') =>
              let v := f.build kwargs
              let s'' := { s' with
                instances := alInsert k v s'.instances
                buildLog := s'.buildLog ++ [k]
                services := match svcName v with
                  | some n => alInsert n v s'.services
                  | none => s'.services }
              (.ok v, s'')

/-- `Container.register_service`: adds to the ordered lifecycle registry,
keyed by the service's name (duplicate names overwrite). -/
def registerService {K V : Type} (s : ContainerState K V) (n : String) (v : V) :
    ContainerState K V :=
  { s with services := alInsert n v s.services }

/-- The `for` loop of `Container.start_all_services`: each service's
`start()` is awaited in registration order; on success the loop records
the service and continues, on an exception it records the failed attempt
and re-raises (aborting the pass).  The returned list holds, in order,
each service on which `start` was called, flagged `true` when it
succeeded. -/
def startServicesLoop {V : Type} (startBeh : V → Except String Unit) :
    List (String × V) → List (String × Bool) × Except String Unit
  | [] => ([], Except.ok ())
  | (n, v) :: rest =>
    match startBeh v with
    | .ok _ =>
      let r := startServicesLoop startBeh rest
      ((n, true) :: r.1, r.2)
    | .error e => ([(n, false)], .error e)

/-- `Container.start_all_services`: status is set to `INITIALIZING`, the
loop runs, and the final status is `HEALTHY` on full success or `FAILED`
when a start raised (in which case the exception is re-raised to the
caller).  `startBeh` embeds each service object's `start()` behaviour. -/
def startAllServices {K V : Type} (startBeh : V → Except String Unit)
    (s : ContainerState K V) :
    ContainerState K V × List (String × Bool) × Except String Unit :=
  let att := startServicesLoop startBeh s.services
  let st := match att.2 with
    | .ok _ => ServiceStatus.HEALTHY
    | .error _ => ServiceStatus.FAILED
  ({ s with status := st }, att)

/-- The `for` loop of `Container.stop_all_services`: every service's
`stop()` is awaited; an exception is caught and logged and the loop
continues, so each entry of the result records the attempt and its own
outcome. -/
def stopServicesLoop {V : Type} (stopBeh : V → Except String Unit) :
    List (String × V) → List (String × Except String Unit)
  | [] => []
  | (n, v) :: rest => (n, stopBeh v) :: stopServicesLoop stopBeh rest

/-- `Container.stop_all_services`: iterates `reversed(list(services))`
calling `stop()` on each with failures caught, then sets status to
`SHUTDOWN` unconditionally. -/
def stopAllServices {K V : Type} (stopBeh : V → Except String Unit)
    (s : ContainerState K V) :
    ContainerState K V × List (String × Except String Unit) :=
  ({ s with status := ServiceStatus.SHUTDOWN },
   stopServicesLoop stopBeh s.services.reverse)

/-! ## Async event bus (`events.py`) -/

/-- An in-flight handler task created by `asyncio.create_task` in
`publish`: the subscription it serves, the handler id, the event passed
to it, and whether it has already completed. -/
structure RTask where
  subId : Nat
  handler : Nat
  event : Event
  done : Bool
deriving DecidableEq, Repr

/-- `AsyncEventBus` state: subscriptions (`event_type -> sub_id ->
handler`), the `_event_flags` dict mapping event types to flag objects,
the heap of `asyncio.Event` flag objects themselves (`flagHeap`, keyed by
object identity, so a waiter's reference survives the dict being
cleared), the `_last_events` cache, status, and the tracked in-flight
handler tasks.  `nextFlagId` and `nextSubId` model freshness of object
allocation and of `uuid.uuid4()` subscription ids. -/
structure BusState where
  name : String
  subscriptions : List (String × List (Nat × Nat))
  flagDict : List (String × Nat)
  flagHeap : List (Nat × Bool)
  nextFlagId : Nat
  lastEvents : List (String × Event)
  status : ServiceStatus
  runningTasks : List RTask
  nextSubId : Nat

/-- `AsyncEventBus.__init__`. -/
def AsyncEventBus.init (n : String) : BusState :=
  { name := n, subscriptions := [], flagDict := [], flagHeap := []
    nextFlagId := 0, lastEvents := [], status := ServiceStatus.INITIALIZING
    runningTasks := [], nextSubId := 0 }

/-- The set-state of the flag object `f`, as `asyncio.Event.is_set`. -/
def flagValue (s : BusState) (f : Nat) : Bool :=
  (alLookup f s.flagHeap).getD false

/-- `AsyncEventBus.start`. -/
def busStart (s : BusState) : BusState :=
  { s with status := ServiceStatus.HEALTHY }

/-- Outcome of an awaited in-flight task at shutdown. -/
inductive TaskOutcome where
  | completed
  | cancelled
deriving DecidableEq, Repr

/-- `AsyncEventBus.stop`: status becomes `SHUTDOWN`; every tracked task
that is not done is cancelled; `asyncio.gather(..., return_exceptions=
True)` awaits them all; then subscriptions, the `_event_flags` dict and
the last-event cache are cleared.  The flag heap is untouched: flag
objects referenced by pending waiters live on, unset.  The settled tasks
(with their outcomes) are returned alongside the new state. -/
def busStop (s : BusState) : BusState × List (RTask × TaskOutcome) :=
  let settled := s.runningTasks.map fun t =>
    (t, if t.done then TaskOutcome.completed else TaskOutcome.cancelled)
  ({ s with status := ServiceStatus.SHUTDOWN, subscriptions := []
            flagDict := [], lastEvents := [], runningTasks := [] },
   settled)

/-- `AsyncEventBus.publish`: dropped (no state change, no tasks) unless
status is `HEALTHY`; otherwise records the event as last-seen for its
type, sets the type's flag object if one exists in `_event_flags`, and
launches one task per current subscriber of `event.type`, each carrying
the event unchanged; publish returns without running any of them. -/
def busPublish (s : BusState) (e : Event) : BusState × List RTask :=
  if s.status ≠ ServiceStatus.HEALTHY then (s, [])
  else
    let lastEvents' := alInsert e.type e s.lastEvents
    let flagHeap' := match alLookup e.type s.flagDict with
      | some f => alInsert f true s.flagHeap
      | none => s.flagHeap
    let subs := (alLookup e.type s.subscriptions).getD []
    let tasks := subs.map fun sh =>
      { subId := sh.1, handler := sh.2, event := e, done := false }
    ({ s with lastEvents := lastEvents', flagHeap := flagHeap'
              runningTasks := s.runningTasks ++ tasks },
     tasks)

/-- `AsyncEventBus.subscribe`: stores the handler under a fresh
subscription id (`uuid.uuid4()`, embedded as a counter) for the event
type and returns the id. -/
def busSubscribe (s : BusState) (etype : String) (h : Nat) : BusState × Nat :=
  let sid := s.nextSubId
  let inner := (alLookup etype s.subscriptions).getD []
  ({ s with subscriptions := alInsert etype (alInsert sid h inner) s.subscriptions
            nextSubId := sid + 1 },
   sid)

/-- Remove a key from an association list (Python `del d[k]`). -/
def alRemove {K V : Type} [DecidableEq K] (k : K) : List (K × V) → List (K × V)
  | [] => []
  | (k', v) :: rest => if k' = k then rest else (k', v) :: alRemove k rest

/-- The scan of `AsyncEventBus.unsubscribe`: the first event type whose
inner dict holds the subscription id has it deleted, and the scan
returns; otherwise it is a logged no-op. -/
def unsubscribeScan (sid : Nat) :
    List (String × List (Nat × Nat)) → List (String × List (Nat × Nat))
  | [] => []
  | (t, inner) :: rest =>
    if (alLookup sid inner).isSome then (t, alRemove sid inner) :: rest
    else (t, inner) :: unsubscribeScan sid rest

/-- `AsyncEventBus.unsubscribe`. -/
def busUnsubscribe (s : BusState) (sid : Nat) : BusState :=
  { s with subscriptions := unsubscribeScan sid s.subscriptions }

/-- How a call to `AsyncEventBus.wait_for_event` begins: `immediateNone`
embeds the early `return None` taken when the bus is not healthy;
`pending f` records that the caller now awaits flag object `f`. -/
inductive WaitStart where
  | immediateNone
  | pending (flag : Nat)
deriving DecidableEq, Repr

/-- The entry of `AsyncEventBus.wait_for_event`: returns `None` at once
when status is not `HEALTHY` (no flag consulted or created); otherwise
gets or creates the `asyncio.Event` for the type, clears it (so only a
fresh publish can satisfy the wait), and suspends on it. -/
def waitForEventBegin (s : BusState) (etype : String) : BusState × WaitStart :=
  if s.status ≠ ServiceStatus.HEALTHY then (s, WaitStart.immediateNone)
  else
    let af := match alLookup etype s.flagDict with
      | some f => (s, f)
      | none =>
        ({ s with flagDict := alInsert etype s.nextFlagId s.flagDict
                  flagHeap := alInsert s.nextFlagId false s.flagHeap
                  nextFlagId := s.nextFlagId + 1 },
         s.nextFlagId)
    ({ af.1 with flagHeap := alInsert af.2 false af.1.flagHeap },
     WaitStart.pending af.2)

/-- One observation of a suspended `wait_for_event` call pending on flag
`f`: `some r` means the call resolves with `r`, `none` that it is still
suspended.  It resolves with the last event of its type once the flag is
set, and with `None` when its timeout has elapsed (`timedOut` is `false`
forever for a call made with `timeout=None`). -/
def waitForEventPoll (s : BusState) (etype : String) (f : Nat) (timedOut : Bool) :
    Option (Option Event) :=
  if flagValue s f then some (alLookup etype s.lastEvents)
  else if timedOut then some none
  else none

/-- The bus operations whose interleaving we reason about. -/
inductive BusOp where
  | opStart
  | opStop
  | opPublish (e : Event)
  | opSubscribe (etype : String) (h : Nat)
  | opUnsubscribe (sid : Nat)
  | opWaitBegin (etype : String)

/-- State transition of one bus operation. -/
def busStep (s : BusState) : BusOp → BusState
  | .opStart => busStart s
  | .opStop => (busStop s).1
  | .opPublish e => (busPublish s e).1
  | .opSubscribe t h => (busSubscribe s t h).1
  | .opUnsubscribe sid => busUnsubscribe s sid
  | .opWaitBegin t => (waitForEventBegin s t).1

/-- Run a sequence of bus operations. -/
def busRun (s : BusState) (ops : List BusOp) : BusState :=
  ops.foldl busStep s

/-- A waiter pending on flag object `f` is never woken from `s` on: no
interleaving of further bus operations ever sets its flag. -/
def waiterNeverWoken (s : BusState) (f : Nat) : Prop :=
  ∀ ops : List BusOp, flagValue (busRun s ops) f = false

/-- Ghost invariant about a flag object `f` a waiter holds: it is unset,
the `_event_flags` dict maps only types in `TS` to it (for a stranded
waiter `TS` is empty; for a live one it is its own event type), and `f`
predates every flag the bus could still allocate. -/
def flagGhostInv (f : Nat) (TS : String → Prop) (s : BusState) : Prop :=
  flagValue s f = false
  ∧ (∀ t, alLookup t s.flagDict = some f → TS t)
  ∧ f < s.nextFlagId

/-! ## Handler execution (`_execute_handler_safely`) -/

/-- What a handler invocation does: return, raise an exception, or be
cancelled (`asyncio.CancelledError` during shutdown). -/
inductive HOutcome where
  | ok
  | raises (msg : String)
  | cancelled
deriving DecidableEq, Repr

/-- Exceptions a raw handler call can raise. -/
inductive HExn where
  | exn (msg : String)
  | cancelledError
deriving DecidableEq, Repr

/-- The raw `handler(event)` call (or its `asyncio.to_thread` dispatch):
behaviour given by `beh`, raising whatever the handler raises. -/
def runHandler (beh : Nat → Event → HOutcome) (h : Nat) (e : Event) :
    Except HExn Unit :=
  match beh h e with
  | .ok => .ok ()
  | .raises m => .error (HExn.exn m)
  | .cancelled => .error HExn.cancelledError

/-- What `_execute_handler_safely` records: normal completion, a
swallowed cancellation, or a logged error carrying the event type, event
id, subscription id, correlation id and message. -/
inductive ExecLog where
  | success
  | cancelledSwallowed
  | errorLogged (etype : String) (eventId : Nat) (subId : Nat)
      (corr : Option String) (msg : String)
deriving DecidableEq, Repr

/-- `AsyncEventBus._execute_handler_safely`: runs the handler; a
`CancelledError` is swallowed; any other exception is caught and logged
with its context; nothing is re-raised. -/
def executeHandlerSafely (beh : Nat → Event → HOutcome) (t : RTask) :
    Except HExn ExecLog :=
  match runHandler beh t.handler t.event with
  | .ok _ => .ok ExecLog.success
  | .error HExn.cancelledError => .ok ExecLog.cancelledSwallowed
  | .error (HExn.exn m) =>
    .ok (ExecLog.errorLogged t.event.type t.event.id t.subId
          (t.event.correlation_id.map fun c => c.value) m)

/-- Execution of the independent handler tasks spawned by one publish:
each `asyncio.create_task` runs `_execute_handler_safely` on its own. -/
def runHandlerTasks (beh : Nat → Event → HOutcome) (tasks : List RTask) :
    List (Nat × Except HExn ExecLog) :=
  tasks.map fun t => (t.subId, executeHandlerSafely beh t)

/-! ## Concrete fixtures for the spec's example scenarios -/

/-- The two registration keys of the spec's DI example scenario. -/
inductive DIKey where
  | logger
  | worker
deriving DecidableEq, Repr

/-- The objects the example factories construct: a Logger, and a Worker
holding its resolved `logger` argument. -/
inductive DIObj where
  | loggerInst (uid : Nat)
  | workerInst (dep : Option DIObj)

/-- None of the example objects satisfies the `Service` protocol. -/
def noService : DIObj → Option String := fun _ => none

/-- Factory for `Logger`: no declared parameters. -/
def loggerFactory : Factory DIKey DIObj :=
  { params := [], build := fun _ => DIObj.loggerInst 7 }

/-- Factory for `Worker(logger: Logger)`: one parameter named `logger`
annotated with the `Logger` key and without a default. -/
def workerFactory : Factory DIKey DIObj :=
  { params := [{ name := ("logger"), ann := some DIKey.logger, default := none }]
    build := fun kwargs => DIObj.workerInst (alLookup ("logger") kwargs) }

/-- A fresh container with the `Logger` and `Worker` factories
registered. -/
def c1Container : ContainerState DIKey DIObj :=
  registerFactory
    (registerFactory (ContainerState.init DIKey DIObj) DIKey.logger loggerFactory)
    DIKey.worker workerFactory

/-- A container in which the `Logger` key simultaneously has a registered
singleton, a cached factory-built instance, and a factory: obtained from
`c1Container` by resolving `Logger` once and then pinning a singleton
over it. -/
def c9Container : ContainerState DIKey DIObj :=
  registerSingleton (containerGet noService 10 c1Container DIKey.logger).2
    DIKey.logger (DIObj.loggerInst 99)

/-- A started event bus. -/
def healthyBus : BusState := busStart (AsyncEventBus.init ("luna-event-bus"))

/-- A concrete event. -/
def pingEvent : Event :=
  { id := 1, type := ("ping"), timestamp := 0, correlation_id := none
    payload := [(("n"), ("1"))] }

/-- A `wait_for_event("system.shutdown", timeout=None)` call issued on the
healthy bus: the state with the waiter's freshly created flag, and the
pending handle. -/
def c2PendingWait : BusState × WaitStart :=
  waitForEventBegin healthyBus ("system.shutdown")

/-- The bus after `stop()` ran while that waiter was still pending. -/
def c2AfterStop : BusState := (busStop c2PendingWait.1).1

/-- A healthy bus with two handlers subscribed to `"ping"`. -/
def c5Bus : BusState :=
  (busSubscribe (busSubscribe healthyBus ("ping") 10).1 ("ping") 11).1

/-- Handler behaviour where handler 10 raises and every other handler
returns normally. -/
def c6Beh : Nat → Event → HOutcome :=
  fun h _ => if h = 10 then HOutcome.raises ("boom") else HOutcome.ok

/-- Handler behaviour where every handler returns normally. -/
def c6BehOk : Nat → Event → HOutcome := fun _ _ => HOutcome.ok

/-- The task running handler 10 (the raising one) for the ping event. -/
def c6Task : RTask := { subId := 0, handler := 10, event := pingEvent, done := false }

/-- The sibling task running handler 11 for the ping event. -/
def c6Sibling : RTask := { subId := 1, handler := 11, event := pingEvent, done := false }

/-- Lifecycle behaviour of the example services, embedded over `Bool`
service objects: a `true` service starts/stops cleanly, a `false` one
raises. -/
def svcStartBeh : Bool → Except String Unit :=
  fun ok => if ok then Except.ok () else Except.error ("start-fail")

/-- Stop behaviour of the example services. -/
def svcStopBeh : Bool → Except String Unit :=
  fun ok => if ok then Except.ok () else Except.error ("stop-fail")

/-- Services `[A, B, C]` registered in that order, where B is the one
that raises. -/
def abcContainer : ContainerState Unit Bool :=
  registerService
    (registerService
      (registerService (ContainerState.init Unit Bool) ("A") true) ("B") false)
    ("C") true

/-- The two-subscriber bus right after publishing `pingEvent`: both
handler tasks are tracked and still in flight. -/
def busyBus : BusState := (busPublish c5Bus pingEvent).1

/-! ## Helper lemmas -/

theorem alLookup_alInsert {K V : Type} [DecidableEq K] (k k' : K) (v : V)
    (l : List (K × V)) :
    alLookup k (alInsert k' v l) = if k' = k then some v else alLookup k l := by
  induction l with
  | nil => simp [alInsert, alLookup]
  | cons hd tl ih =>
    obtain ⟨a, b⟩ := hd
    simp only [alInsert, alLookup]
    by_cases h1 : a = k'
    · subst h1
      by_cases h2 : a = k <;> simp [alLookup, h2]
    · by_cases h2 : a = k
      · subst h2
        have : ¬ k' = a := fun hc => h1 hc.symm
        simp [alLookup, this, h1]
      · simp [alLookup, h1, h2, ih]

theorem alLookup_alInsert_self {K V : Type} [DecidableEq K] (k : K) (v : V)
    (l : List (K × V)) : alLookup k (alInsert k v l) = some v := by
  simp [alLookup_alInsert]

theorem startServicesLoop_all_ok {V : Type} (startBeh : V → Except String Unit)
    (l : List (String × V)) (h : ∀ nv ∈ l, startBeh nv.2 = Except.ok ()) :
    startServicesLoop startBeh l = (l.map fun nv => (nv.1, true), Except.ok ()) := by
  induction l with
  | nil => rfl
  | cons hd tl ih =>
    obtain ⟨n, v⟩ := hd
    have hh : startBeh v = Except.ok () := h (n, v) (List.mem_cons_self _ _)
    have ht := ih fun nv hm => h nv (List.mem_cons_of_mem _ hm)
    simp [startServicesLoop, hh, ht]

theorem startServicesLoop_fail {V : Type} (startBeh : V → Except String Unit)
    (pre post : List (String × V)) (bn : String) (bv : V) (e : String)
    (hpre : ∀ nv ∈ pre, startBeh nv.2 = Except.ok ())
    (hb : startBeh bv = Except.error e) :
    startServicesLoop startBeh (pre ++ (bn, bv) :: post)
      = (pre.map (fun nv => (nv.1, true)) ++ [(bn, false)], Except.error e) := by
  induction pre with
  | nil => simp [startServicesLoop, hb]
  | cons hd tl ih =>
    obtain ⟨n, v⟩ := hd
    have hh : startBeh v = Except.ok () := hpre (n, v) (List.mem_cons_self _ _)
    have ht := ih fun nv hm => hpre nv (List.mem_cons_of_mem _ hm)
    simp [startServicesLoop, hh, ht]

theorem stopServicesLoop_eq_map {V : Type} (stopBeh : V → Except String Unit)
    (l : List (String × V)) :
    stopServicesLoop stopBeh l = l.map fun nv => (nv.1, stopBeh nv.2) := by
  induction l with
  | nil => rfl
  | cons hd tl ih =>
    obtain ⟨n, v⟩ := hd
    simp [stopServicesLoop, ih]

theorem flagGhostInv_step (f : Nat) (TS : String → Prop) (s : BusState) (op : BusOp)
    (hI : flagGhostInv f TS s)
    (hop : ∀ e : Event, op = BusOp.opPublish e → ¬ TS e.type) :
    flagGhostInv f TS (busStep s op) := by
  obtain ⟨hval, hdict, hlt⟩ := hI
  cases op with
  | opStart => exact ⟨hval, hdict, hlt⟩
  | opStop =>
    refine ⟨hval, ?_, hlt⟩
    intro t ht
    simp [busStep, busStop, alLookup] at ht
  | opPublish e =>
    have hTS := hop e rfl
    have hD : (busPublish s e).1.flagDict = s.flagDict := by
      by_cases hst : s.status = ServiceStatus.HEALTHY
      · cases hd : alLookup e.type s.flagDict <;> simp [busPublish, hst, hd]
      · simp [busPublish, hst]
    have hN : (busPublish s e).1.nextFlagId = s.nextFlagId := by
      by_cases hst : s.status = ServiceStatus.HEALTHY
      · cases hd : alLookup e.type s.flagDict <;> simp [busPublish, hst, hd]
      · simp [busPublish, hst]
    refine ⟨?_, ?_, ?_⟩
    · by_cases hst : s.status = ServiceStatus.HEALTHY
      · cases hd : alLookup e.type s.flagDict with
        | none =>
          simpa [busStep, busPublish, hst, hd, flagValue] using hval
        | some g =>
          have hgf : g ≠ f := fun hgf => hTS (hdict e.type (hgf ▸ hd))
          simpa [busStep, busPublish, hst, hd, flagValue, alLookup_alInsert, hgf]
            using hval
      · simpa [busStep, busPublish, hst, flagValue] using hval
    · intro t ht
      simp only [busStep] at ht
      rw [hD] at ht
      exact hdict t ht
    · simp only [busStep]
      rw [hN]
      exact hlt
  | opSubscribe t h => exact ⟨hval, hdict, hlt⟩
  | opUnsubscribe sid => exact ⟨hval, hdict, hlt⟩
  | opWaitBegin t =>
    by_cases hst : s.status = ServiceStatus.HEALTHY
    · cases hd : alLookup t s.flagDict with
      | some g =>
        have hD : (waitForEventBegin s t).1.flagDict = s.flagDict := by
          simp [waitForEventBegin, hst, hd]
        have hN : (waitForEventBegin s t).1.nextFlagId = s.nextFlagId := by
          simp [waitForEventBegin, hst, hd]
        refine ⟨?_, ?_, ?_⟩
        · by_cases hgf : g = f
          · subst hgf
            simp [busStep, waitForEventBegin, hst, hd, flagValue, alLookup_alInsert]
          · simpa [busStep, waitForEventBegin, hst, hd, flagValue, alLookup_alInsert,
              hgf] using hval
        · intro t' ht'
          simp only [busStep] at ht'
          rw [hD] at ht'
          exact hdict t' ht'
        · simp only [busStep]
          rw [hN]
          exact hlt
      | none =>
        have hnef : s.nextFlagId ≠ f := Nat.ne_of_gt hlt
        have hD : (waitForEventBegin s t).1.flagDict
            = alInsert t s.nextFlagId s.flagDict := by
          simp [waitForEventBegin, hst, hd]
        have hN : (waitForEventBegin s t).1.nextFlagId = s.nextFlagId + 1 := by
          simp [waitForEventBegin, hst, hd]
        refine ⟨?_, ?_, ?_⟩
        · simpa [busStep, waitForEventBegin, hst, hd, flagValue, alLookup_alInsert,
            hnef] using hval
        · intro t' ht'
          simp only [busStep] at ht'
          rw [hD, alLookup_alInsert] at ht'
          by_cases htt : t = t'
          · rw [if_pos htt] at ht'
            exact absurd (Option.some.inj ht') hnef
          · rw [if_neg htt] at ht'
            exact hdict t' ht'
        · simp only [busStep]
          rw [hN]
          exact Nat.lt_succ_of_lt hlt
    · have hne : waitForEventBegin s t = (s, WaitStart.immediateNone) := by
        simp [waitForEventBegin, hst]
      simp only [busStep, hne]
      exact ⟨hval, hdict, hlt⟩

theorem flagGhostInv_run (f : Nat) (TS : String → Prop) (s : BusState)
    (ops : List BusOp) (hI : flagGhostInv f TS s)
    (hops : ∀ e : Event, BusOp.opPublish e ∈ ops → ¬ TS e.type) :
    flagGhostInv f TS (busRun s ops) := by
  induction ops generalizing s with
  | nil => exact hI
  | cons op rest ih =>
    have h1 := flagGhostInv_step f TS s op hI
      (fun e he => hops e (he ▸ List.mem_cons_self _ _))
    exact ih (busStep s op) h1 (fun e hm => hops e (List.mem_cons_of_mem _ hm))

theorem containerResolveParams_error_eq_outOfFuel {K V : Type}
    (getFn : ContainerState K V → K → Except (DIErr K) V × ContainerState K V) :
    ∀ (ps : List (FParam K V)) (s : ContainerState K V) (e : DIErr K)
      (s' : ContainerState K V),
    containerResolveParams getFn s ps = (Except.error e, s') → e = DIErr.outOfFuel := by
  intro ps
  induction ps with
  | nil =>
    intro s e s' h
    simp [containerResolveParams] at h
  | cons p rest ih =>
    intro s e s' h
    simp only [containerResolveParams] at h
    cases hann : p.ann with
    | none =>
      rw [hann] at h
      exact ih s e s' h
    | some dep =>
      rw [hann] at h
      simp only [] at h
      by_cases hself : p.name = "self"
      · rw [if_pos hself] at h
        exact ih s e s' h
      · rw [if_neg hself] at h
        rcases hget : getFn s dep with ⟨res, s1⟩
        rw [hget] at h
        cases res with
        | ok v =>
          dsimp only at h
          rcases hrest : containerResolveParams getFn s1 rest with ⟨r2, s2⟩
          rw [hrest] at h
          cases r2 with
          | ok kw => simp at h
          | error e2 =>
            simp at h
            exact h.1 ▸ ih s1 e2 s2 hrest
        | error de =>
          cases de with
          | noFactory k0 =>
            dsimp only at h
            cases hdef : p.default with
            | some d =>
              rw [hdef] at h
              dsimp only at h
              rcases hrest : containerResolveParams getFn s1 rest with ⟨r2, s2⟩
              rw [hrest] at h
              cases r2 with
              | ok kw => simp at h
              | error e2 =>
                simp at h
                exact h.1 ▸ ih s1 e2 s2 hrest
            | none =>
              rw [hdef] at h
              exact ih s1 e s' h
          | outOfFuel =>
            simp at h
            exact h.1.symm

/-! ## Claim theorems -/

/-- Claim C1: with a factory registered for `Logger` (no dependencies)
and one for `Worker(logger: Logger)`, `get(Worker)` terminates and
returns a Worker whose logger was resolved by the recursive
`get(Logger)` (the build log shows Logger constructed first, during the
Worker resolution, and exactly once), and a subsequent `get(Logger)`
returns that same instance from the cache without constructing again. -/
theorem container_worker_logger_memoized_resolution :
    (containerGet noService 10 c1Container DIKey.worker).1
      = Except.ok (DIObj.workerInst (some (DIObj.loggerInst 7)))
  ∧ (containerGet noService 10 c1Container DIKey.worker).2.buildLog
      = [DIKey.logger, DIKey.worker]
  ∧ (containerGet noService 10 c1Container DIKey.worker).2.buildLog.count DIKey.logger = 1
  ∧ containerGet noService 10 (containerGet noService 10 c1Container DIKey.worker).2 DIKey.logger
      = (Except.ok (DIObj.loggerInst 7),
         (containerGet noService 10 c1Container DIKey.worker).2) :=
  ⟨rfl, rfl, rfl, rfl⟩

/-- Claim C7: `start_all_services` starts services in registration
order; when a service's `start` raises, the earlier services have been
started, the failing one was attempted, the later ones are never
started, the status is `FAILED` and the error is re-raised; when every
`start` succeeds the status is `HEALTHY`. -/
theorem start_all_services_fail_fast_in_order {K V : Type}
    (startBeh : V → Except String Unit) (s : ContainerState K V)
    (pre post : List (String × V)) (bn : String) (bv : V) (e : String)
    (hpre : ∀ nv ∈ pre, startBeh nv.2 = Except.ok ())
    (hb : startBeh bv = Except.error e)
    (hsvc : s.services = pre ++ (bn, bv) :: post) :
    startAllServices startBeh s
      = ({ s with status := ServiceStatus.FAILED },
         pre.map (fun nv => (nv.1, true)) ++ [(bn, false)], Except.error e)
  ∧ ∀ s' : ContainerState K V, (∀ nv ∈ s'.services, startBeh nv.2 = Except.ok ()) →
      startAllServices startBeh s'
        = ({ s' with status := ServiceStatus.HEALTHY },
           s'.services.map fun nv => (nv.1, true), Except.ok ()) := by
  constructor
  · simp [startAllServices, hsvc,
      startServicesLoop_fail startBeh pre post bn bv e hpre hb]
  · intro s' h'
    simp [startAllServices, startServicesLoop_all_ok startBeh _ h']

/-- Witness for C7 at the spec's `[A, B, C]` scenario with B failing:
A started, B attempted and failed, C never started, status `FAILED`,
error surfaced. -/
theorem start_all_services_witness :
    startAllServices svcStartBeh abcContainer
      = ({ abcContainer with status := ServiceStatus.FAILED },
         [(("A"), true), (("B"), false)], Except.error ("start-fail")) :=
  (start_all_services_fail_fast_in_order svcStartBeh abcContainer
    [(("A"), true)] [(("C"), true)] ("B") false ("start-fail")
    (fun nv hm => by rcases List.mem_singleton.mp hm with rfl; rfl)
    rfl rfl).1

/-- Claim C8: `stop_all_services` stops every registered service in
exact reverse registration order, each attempt recording its own
outcome (a raising `stop` is caught and the loop continues, so every
remaining service is still attempted), and the status is `SHUTDOWN`
after the pass regardless of individual failures. -/
theorem stop_all_services_reverse_best_effort {K V : Type}
    (stopBeh : V → Except String Unit) (s : ContainerState K V) :
    stopAllServices stopBeh s
      = ({ s with status := ServiceStatus.SHUTDOWN },
         s.services.reverse.map fun nv => (nv.1, stopBeh nv.2)) := by
  simp [stopAllServices, stopServicesLoop_eq_map]

/-- Counterexample to C3's conjunct that the `Event` type forbids field
reassignment after creation: `Event` is a pydantic model that does not
set `frozen`, so assigning `type` on a constructed event succeeds. -/
theorem event_field_reassignment_not_forbidden :
    Event.assignType pingEvent ("hacked")
      = Except.ok { pingEvent with type := ("hacked") }
  ∧ eventModelConfig.frozen = false :=
  ⟨rfl, rfl⟩

/-- Claim C3 as amended: no bus operation mutates a previously published
event — `publish` stores the published event itself and hands each
handler task that very event, while every other operation leaves the
last-event cache entry for a type untouched or clears it — though the
`Event` type itself does not forbid field reassignment. -/
theorem bus_operations_never_mutate_published_events (s : BusState) (T : String) :
    (∀ e : Event, s.status = ServiceStatus.HEALTHY →
        alLookup T (busPublish s e).1.lastEvents
          = if e.type = T then some e else alLookup T s.lastEvents)
  ∧ (∀ e : Event, ∀ t ∈ (busPublish s e).2, t.event = e)
  ∧ (busStart s).lastEvents = s.lastEvents
  ∧ (busStop s).1.lastEvents = []
  ∧ (∀ h : Nat, (busSubscribe s T h).1.lastEvents = s.lastEvents)
  ∧ (∀ sid : Nat, (busUnsubscribe s sid).lastEvents = s.lastEvents)
  ∧ (waitForEventBegin s T).1.lastEvents = s.lastEvents := by
  refine ⟨?_, ?_, rfl, rfl, fun h => rfl, fun sid => rfl, ?_⟩
  · intro e hst
    simp [busPublish, hst, alLookup_alInsert]
  · intro e t ht
    by_cases hst : s.status = ServiceStatus.HEALTHY
    · simp [busPublish, hst] at ht
      obtain ⟨sh, hsh, ⟨hmem, rfl⟩⟩ := ht
      rfl
    · simp [busPublish, hst] at ht
  · by_cases hst : s.status = ServiceStatus.HEALTHY
    · simp only [waitForEventBegin, hst]
      cases halt : alLookup T s.flagDict <;> simp [halt]
    · simp [waitForEventBegin, hst]

/-- Witness for the amended C3: publishing `pingEvent` on the healthy
two-subscriber bus caches exactly the published event. -/
theorem bus_operations_never_mutate_witness :
    alLookup ("ping") (busPublish c5Bus pingEvent).1.lastEvents = some pingEvent := by
  have h := (bus_operations_never_mutate_published_events c5Bus ("ping")).1 pingEvent rfl
  simpa using h

/-- Claim C4: a `wait_for_event(T, timeout)` call suspends on T's flag
after clearing it, so an event of type T already cached when the wait
begins never satisfies it, and no sequence of operations containing no
publish of type T ever sets its flag; with the flag unset it stays
suspended until, with a finite timeout, it resolves `None`; a second
concurrent waiter on T pends on the very same flag; and a single publish
of type T on the healthy bus sets that shared flag and caches the event,
releasing every pending waiter on T with that event. -/
theorem wait_for_event_fresh_publish_semantics (s : BusState) (T : String)
    (hst : s.status = ServiceStatus.HEALTHY)
    (hwf1 : ∀ t g, alLookup t s.flagDict = some g → g < s.nextFlagId)
    (hwf2 : ∀ t t' g, alLookup t s.flagDict = some g →
        alLookup t' s.flagDict = some g → t = t') :
    ∃ f : Nat,
      (waitForEventBegin s T).2 = WaitStart.pending f
    ∧ flagValue (waitForEventBegin s T).1 f = false
    ∧ (waitForEventBegin (waitForEventBegin s T).1 T).2 = WaitStart.pending f
    ∧ (∀ ops : List BusOp, (∀ e : Event, BusOp.opPublish e ∈ ops → e.type ≠ T) →
        flagValue (busRun (waitForEventBegin s T).1 ops) f = false)
    ∧ (∀ s' : BusState, flagValue s' f = false →
        waitForEventPoll s' T f false = none ∧ waitForEventPoll s' T f true = some none)
    ∧ (∀ s' : BusState, s'.status = ServiceStatus.HEALTHY →
        alLookup T s'.flagDict = some f → ∀ e : Event, e.type = T →
        flagValue (busPublish s' e).1 f = true
        ∧ alLookup T (busPublish s' e).1.lastEvents = some e
        ∧ waitForEventPoll (busPublish s' e).1 T f false = some (some e))
    ∧ alLookup T (waitForEventBegin s T).1.flagDict = some f := by
  have hpoll : ∀ (g : Nat) (s' : BusState), flagValue s' g = false →
      waitForEventPoll s' T g false = none
      ∧ waitForEventPoll s' T g true = some none := by
    intro g s' h
    constructor <;> simp [waitForEventPoll, h]
  have hpub : ∀ (g : Nat) (s' : BusState), s'.status = ServiceStatus.HEALTHY →
      alLookup T s'.flagDict = some g → ∀ e : Event, e.type = T →
      flagValue (busPublish s' e).1 g = true
      ∧ alLookup T (busPublish s' e).1.lastEvents = some e
      ∧ waitForEventPoll (busPublish s' e).1 T g false = some (some e) := by
    intro g s' hst' hT e hty
    subst hty
    have h1 : flagValue (busPublish s' e).1 g = true := by
      simp [busPublish, hst', hT, flagValue, alLookup_alInsert]
    have h2 : alLookup e.type (busPublish s' e).1.lastEvents = some e := by
      simp [busPublish, hst', hT, alLookup_alInsert]
    exact ⟨h1, h2, by simp [waitForEventPoll, h1, h2]⟩
  have hsecond : ∀ (x : BusState) (g : Nat), x.status = ServiceStatus.HEALTHY →
      alLookup T x.flagDict = some g →
      (waitForEventBegin x T).2 = WaitStart.pending g := by
    intro x g hx hg
    simp [waitForEventBegin, hx, hg]
  cases hd : alLookup T s.flagDict with
  | some f0 =>
    have hW2 : (waitForEventBegin s T).2 = WaitStart.pending f0 := by
      simp [waitForEventBegin, hst, hd]
    have hH : (waitForEventBegin s T).1.flagHeap = alInsert f0 false s.flagHeap := by
      simp [waitForEventBegin, hst, hd]
    have hD : (waitForEventBegin s T).1.flagDict = s.flagDict := by
      simp [waitForEventBegin, hst, hd]
    have hN : (waitForEventBegin s T).1.nextFlagId = s.nextFlagId := by
      simp [waitForEventBegin, hst, hd]
    have hSt : (waitForEventBegin s T).1.status = s.status := by
      simp [waitForEventBegin, hst, hd]
    have hval : flagValue (waitForEventBegin s T).1 f0 = false := by
      simp [flagValue, hH, alLookup_alInsert]
    refine ⟨f0, hW2, hval, ?_, ?_, hpoll f0, hpub f0, hD ▸ hd⟩
    · exact hsecond _ f0 (hSt.trans hst) (hD ▸ hd)
    · intro ops hops
      have hI : flagGhostInv f0 (fun t => t = T) (waitForEventBegin s T).1 := by
        refine ⟨hval, ?_, ?_⟩
        · intro t ht
          rw [hD] at ht
          exact hwf2 t T f0 ht hd
        · rw [hN]
          exact hwf1 T f0 hd
      exact (flagGhostInv_run f0 (fun t => t = T) (waitForEventBegin s T).1 ops hI
        fun e hm => hops e hm).1
  | none =>
    have hW2 : (waitForEventBegin s T).2 = WaitStart.pending s.nextFlagId := by
      simp [waitForEventBegin, hst, hd]
    have hH : (waitForEventBegin s T).1.flagHeap
        = alInsert s.nextFlagId false (alInsert s.nextFlagId false s.flagHeap) := by
      simp [waitForEventBegin, hst, hd]
    have hD : (waitForEventBegin s T).1.flagDict
        = alInsert T s.nextFlagId s.flagDict := by
      simp [waitForEventBegin, hst, hd]
    have hN : (waitForEventBegin s T).1.nextFlagId = s.nextFlagId + 1 := by
      simp [waitForEventBegin, hst, hd]
    have hSt : (waitForEventBegin s T).1.status = s.status := by
      simp [waitForEventBegin, hst, hd]
    have hval : flagValue (waitForEventBegin s T).1 s.nextFlagId = false := by
      simp [flagValue, hH, alLookup_alInsert]
    have hDT : alLookup T (waitForEventBegin s T).1.flagDict = some s.nextFlagId := by
      rw [hD]
      exact alLookup_alInsert_self T s.nextFlagId s.flagDict
    refine ⟨s.nextFlagId, hW2, hval, ?_, ?_, hpoll s.nextFlagId, hpub s.nextFlagId, hDT⟩
    · exact hsecond _ s.nextFlagId (hSt.trans hst) hDT
    · intro ops hops
      have hI : flagGhostInv s.nextFlagId (fun t => t = T) (waitForEventBegin s T).1 := by
        refine ⟨hval, ?_, ?_⟩
        · intro t ht
          rw [hD, alLookup_alInsert] at ht
          by_cases htt : T = t
          · exact htt.symm
          · rw [if_neg htt] at ht
            exact absurd (hwf1 t s.nextFlagId ht) (Nat.lt_irrefl _)
        · rw [hN]
          exact Nat.lt_succ_self _
      exact (flagGhostInv_run s.nextFlagId (fun t => t = T) (waitForEventBegin s T).1
        ops hI fun e hm => hops e hm).1

/-- Witness for C4 on the healthy bus: the fresh wait on `"ping"` pends
on flag 0 and that flag starts unset. -/
theorem wait_for_event_fresh_publish_witness :
    (waitForEventBegin healthyBus ("ping")).2 = WaitStart.pending 0
  ∧ flagValue (waitForEventBegin healthyBus ("ping")).1 0 = false := by
  obtain ⟨f, h1, h2, -, -, -, -, -⟩ :=
    wait_for_event_fresh_publish_semantics healthyBus ("ping") rfl
      (fun t g h => by simp [healthyBus, busStart, AsyncEventBus.init, alLookup] at h)
      (fun t t' g h h' => by simp [healthyBus, busStart, AsyncEventBus.init, alLookup] at h)
  have hf : f = 0 := by
    have hcomp : (waitForEventBegin healthyBus ("ping")).2 = WaitStart.pending 0 := by
      decide
    have := h1.symm.trans hcomp
    exact (WaitStart.pending.injEq f 0) ▸ this
  exact ⟨hf ▸ h1, hf ▸ h2⟩

/-- Counterexample to C2's conjunct that every `wait_for_event` call
pending before `stop()` eventually resolves: on the started bus a
`wait_for_event("system.shutdown", timeout=None)` call is pending on
flag object 0; after `stop()` that flag is unset (the call is still
suspended, and with no timeout it can only resolve by its flag being
set), and no interleaving of further bus operations — publishes,
restarts, new subscriptions or waits — ever sets flag 0, since `stop()`
dropped it from `_event_flags` and the bus never signals or cancels
pending waiters.  The call therefore hangs forever. -/
theorem stop_strands_untimed_pending_waiter :
    c2PendingWait.2 = WaitStart.pending 0
  ∧ waitForEventPoll c2AfterStop ("system.shutdown") 0 false = none
  ∧ waiterNeverWoken c2AfterStop 0 := by
  refine ⟨by decide, by decide, ?_⟩
  intro ops
  have hI : flagGhostInv 0 (fun _ => False) c2AfterStop := by
    refine ⟨by decide, ?_, by decide⟩
    intro t ht
    have hd : c2AfterStop.flagDict = [] := by decide
    rw [hd] at ht
    simp [alLookup] at ht
  exact (flagGhostInv_run 0 (fun _ => False) c2AfterStop ops hI fun e hm hF => hF).1

/-- Claim C2 as amended: `stop()` sets status `SHUTDOWN`, cancels every
tracked in-flight handler task that is not yet done, awaits them all,
and clears subscriptions, the event-flag dict and the last-event cache;
afterwards every `publish` is a no-op drop that spawns no handler task
and changes no state.  A `wait_for_event` call pending from before
`stop()` with a finite timeout eventually resolves with `None` when its
timeout elapses; only a call made with `timeout=None` is left hanging
(see the counterexample). -/
theorem stop_cancels_tasks_clears_state_and_drops_publishes
    (s : BusState) (e : Event) (f : Nat) (etype : String) :
    ((busStop s).1.status = ServiceStatus.SHUTDOWN
      ∧ (busStop s).1.subscriptions = []
      ∧ (busStop s).1.flagDict = []
      ∧ (busStop s).1.lastEvents = []
      ∧ (busStop s).1.runningTasks = [])
  ∧ (busStop s).2 = s.runningTasks.map (fun t =>
        (t, if t.done then TaskOutcome.completed else TaskOutcome.cancelled))
  ∧ (s.status ≠ ServiceStatus.HEALTHY → busPublish s e = (s, []))
  ∧ (∀ s' : BusState, flagValue s' f = false →
        waitForEventPoll s' etype f true = some none) := by
  refine ⟨⟨rfl, rfl, rfl, rfl, rfl⟩, rfl, ?_, ?_⟩
  · intro h
    simp [busPublish, h]
  · intro s' h
    simp [waitForEventPoll, h]

/-- Witness for the amended C2: stopping the busy bus settles both
in-flight handler tasks as cancelled; publishing on the stopped bus is a
no-op; the stranded waiter's poll resolves `None` once a (finite)
timeout elapses. -/
theorem stop_cancels_tasks_witness :
    (busStop busyBus).2
      = [({ subId := 0, handler := 10, event := pingEvent, done := false },
          TaskOutcome.cancelled),
         ({ subId := 1, handler := 11, event := pingEvent, done := false },
          TaskOutcome.cancelled)]
  ∧ busPublish c2AfterStop pingEvent = (c2AfterStop, [])
  ∧ waitForEventPoll c2AfterStop ("system.shutdown") 0 true = some none :=
  ⟨(stop_cancels_tasks_clears_state_and_drops_publishes busyBus pingEvent 0
      ("system.shutdown")).2.1,
   (stop_cancels_tasks_clears_state_and_drops_publishes c2AfterStop pingEvent 0
      ("system.shutdown")).2.2.1 (by decide),
   (stop_cancels_tasks_clears_state_and_drops_publishes c2AfterStop pingEvent 0
      ("system.shutdown")).2.2.2 c2AfterStop (by decide)⟩

/-- Claim C10: when the bus is not healthy (before `start()` or after
`stop()`), `wait_for_event` returns `None` immediately, leaving the
state untouched — no flag is consulted or created and no timeout is
awaited. -/
theorem wait_for_event_unhealthy_returns_none_immediately
    (s : BusState) (etype : String) (h : s.status ≠ ServiceStatus.HEALTHY) :
    waitForEventBegin s etype = (s, WaitStart.immediateNone) := by
  simp [waitForEventBegin, h]

/-- Witness for C10 on the concrete stopped bus. -/
theorem wait_for_event_unhealthy_witness :
    waitForEventBegin c2AfterStop ("user_input") = (c2AfterStop, WaitStart.immediateNone) :=
  wait_for_event_unhealthy_returns_none_immediately c2AfterStop ("user_input") (by decide)

/-- Claim C9: `Container.get` resolves with strict precedence — a
registered singleton wins over both the instance cache and any factory,
then a cached factory-built instance, then the factory is actually
invoked (the built value is appended to the build log and cached) unless
the recursion budget runs out — and `get` raises the resolution
`ValueError` naming the requested key exactly when the key has no
singleton, no cached instance and no factory, leaving the state
unchanged in that error case. -/
theorem container_get_precedence_and_resolution_error {K V : Type} [DecidableEq K]
    (svcName : V → Option String) (fuel : Nat) (s : ContainerState K V) (k : K) :
    (∀ v, alLookup k s.singletons = some v →
        containerGet svcName (fuel + 1) s k = (Except.ok v, s))
  ∧ (alLookup k s.singletons = none → ∀ v, alLookup k s.instances = some v →
        containerGet svcName (fuel + 1) s k = (Except.ok v, s))
  ∧ (alLookup k s.singletons = none → alLookup k s.instances = none →
      ∀ f, alLookup k s.factories = some f →
      (∃ v s' preLog, containerGet svcName (fuel + 1) s k = (Except.ok v, s')
          ∧ s'.buildLog = preLog ++ [k] ∧ alLookup k s'.instances = some v)
      ∨ (∃ s', containerGet svcName (fuel + 1) s k = (Except.error DIErr.outOfFuel, s')))
  ∧ (∀ j s', containerGet svcName (fuel + 1) s k = (Except.error (DIErr.noFactory j), s')
      ↔ j = k ∧ s' = s ∧ alLookup k s.singletons = none
          ∧ alLookup k s.instances = none ∧ alLookup k s.factories = none) := by
  refine ⟨?_, ?_, ?_, ?_⟩
  · intro v hv
    simp [containerGet, hv]
  · intro h0 v hv
    simp [containerGet, h0, hv]
  · intro h0 h1 f hf
    simp only [containerGet, h0, h1, hf]
    rcases hr : containerResolveParams (containerGet svcName fuel) s f.params with ⟨res, s1⟩
    cases res with
    | error e2 =>
      have he := containerResolveParams_error_eq_outOfFuel
        (containerGet svcName fuel) f.params s e2 s1 hr
      subst he
      right
      exact ⟨s1, by simp [hr]⟩
    | ok kwargs =>
      left
      refine ⟨f.build kwargs,
        { s1 with instances := alInsert k (f.build kwargs) s1.instances
                  buildLog := s1.buildLog ++ [k]
                  services := match svcName (f.build kwargs) with
                    | some n => alInsert n (f.build kwargs) s1.services
                    | none => s1.services },
        s1.buildLog, by simp [hr], rfl, ?_⟩
      exact alLookup_alInsert_self k (f.build kwargs) s1.instances
  · intro j s'
    constructor
    · intro h
      cases h0 : alLookup k s.singletons with
      | some v => simp [containerGet, h0] at h
      | none =>
        cases h1 : alLookup k s.instances with
        | some v => simp [containerGet, h0, h1] at h
        | none =>
          cases h2 : alLookup k s.factories with
          | none =>
            simp [containerGet, h0, h1, h2] at h
            exact ⟨h.1.symm, h.2.symm, rfl, rfl, rfl⟩
          | some f =>
            simp only [containerGet, h0, h1, h2] at h
            rcases hr : containerResolveParams (containerGet svcName fuel) s f.params
              with ⟨res, s1⟩
            rw [hr] at h
            cases res with
            | ok kwargs => simp at h
            | error e2 =>
              have he := containerResolveParams_error_eq_outOfFuel
                (containerGet svcName fuel) f.params s e2 s1 hr
              subst he
              simp at h
    · rintro ⟨rfl, rfl, h0, h1, h2⟩
      simp [containerGet, h0, h1, h2]

/-- Witness for C9: on a container where the `Logger` key has
simultaneously a singleton, a cached instance and a factory, `get`
returns the singleton with unchanged state; and on an empty container,
`get(Worker)` raises the resolution error naming `Worker` and leaves the
state unchanged. -/
theorem container_get_precedence_witness :
    containerGet noService 5 c9Container DIKey.logger
      = (Except.ok (DIObj.loggerInst 99), c9Container)
  ∧ containerGet noService 5 (ContainerState.init DIKey DIObj) DIKey.worker
      = (Except.error (DIErr.noFactory DIKey.worker), ContainerState.init DIKey DIObj) :=
  ⟨(container_get_precedence_and_resolution_error noService 4 c9Container
      DIKey.logger).1 (DIObj.loggerInst 99) rfl,
   ((container_get_precedence_and_resolution_error noService 4
      (ContainerState.init DIKey DIObj) DIKey.worker).2.2.2 DIKey.worker
      (ContainerState.init DIKey DIObj)).mpr ⟨rfl, rfl, rfl, rfl, rfl⟩⟩

/-- Claim C5: publishing `e` on a healthy bus launches exactly one
independent handler task per subscriber of `e.type` present at publish
time, each task carrying the event `e` itself (id, type, payload and
correlation id preserved); the tasks are appended to the tracked
in-flight set unexecuted (`done = false`), so publish returns without
waiting for any handler; with distinct subscription ids each handler is
dispatched exactly once. -/
theorem publish_fanout_exactly_once_preserving_event (s : BusState) (e : Event)
    (hst : s.status = ServiceStatus.HEALTHY) :
    (busPublish s e).2
      = ((alLookup e.type s.subscriptions).getD []).map
          (fun sh => { subId := sh.1, handler := sh.2, event := e, done := false })
  ∧ (busPublish s e).2.map (fun t => t.subId)
      = ((alLookup e.type s.subscriptions).getD []).map Prod.fst
  ∧ (∀ t ∈ (busPublish s e).2, t.event = e ∧ t.done = false)
  ∧ (busPublish s e).1.runningTasks = s.runningTasks ++ (busPublish s e).2
  ∧ (∀ sid : Nat,
      (((alLookup e.type s.subscriptions).getD []).map Prod.fst).Nodup →
      sid ∈ ((alLookup e.type s.subscriptions).getD []).map Prod.fst →
      ((busPublish s e).2.filter fun t => t.subId == sid).length = 1) := by
  have h1 : (busPublish s e).2
      = ((alLookup e.type s.subscriptions).getD []).map
          (fun sh => { subId := sh.1, handler := sh.2, event := e, done := false }) := by
    simp [busPublish, hst]
  refine ⟨h1, ?_, ?_, ?_, ?_⟩
  · rw [h1, List.map_map]
    rfl
  · intro t ht
    rw [h1] at ht
    obtain ⟨sh, hmem, rfl⟩ := List.mem_map.mp ht
    exact ⟨rfl, rfl⟩
  · simp [busPublish, hst]
  · intro sid hnd hmem
    rw [h1]
    rw [← List.countP_eq_length_filter, List.countP_map]
    have hcnt : List.count sid (((alLookup e.type s.subscriptions).getD []).map Prod.fst) = 1 :=
      List.count_eq_one_of_mem hnd hmem
    rw [List.count, List.countP_map] at hcnt
    exact hcnt

/-- Witness for C5 on the healthy two-subscriber bus: both handlers get
their own task carrying the ping event, and subscription 0 is dispatched
exactly once. -/
theorem publish_fanout_witness :
    (busPublish c5Bus pingEvent).2
      = [{ subId := 0, handler := 10, event := pingEvent, done := false },
         { subId := 1, handler := 11, event := pingEvent, done := false }]
  ∧ ((busPublish c5Bus pingEvent).2.filter fun t => t.subId == 0).length = 1 :=
  ⟨(publish_fanout_exactly_once_preserving_event c5Bus pingEvent rfl).1,
   (publish_fanout_exactly_once_preserving_event c5Bus pingEvent rfl).2.2.2.2 0
     (by decide) (by decide)⟩

/-- Claim C6: `_execute_handler_safely` never lets an exception escape —
a raising handler is caught and logged with the event type, event id,
subscription id, correlation id and message, and a cancellation during
shutdown is swallowed — and the per-publish handler tasks are
independent: every sibling is invoked regardless of other handlers'
outcomes, and a task's result is unchanged when only other
subscriptions' behaviour changes. -/
theorem handler_errors_isolated_and_logged
    (beh beh' : Nat → Event → HOutcome) (tasks : List RTask) :
    (∀ t : RTask, ∃ r, executeHandlerSafely beh t = Except.ok r)
  ∧ (∀ t : RTask, ∀ m : String, beh t.handler t.event = HOutcome.raises m →
      executeHandlerSafely beh t
        = Except.ok (ExecLog.errorLogged t.event.type t.event.id t.subId
            (t.event.correlation_id.map fun c => c.value) m))
  ∧ (∀ t : RTask, beh t.handler t.event = HOutcome.cancelled →
      executeHandlerSafely beh t = Except.ok ExecLog.cancelledSwallowed)
  ∧ (runHandlerTasks beh tasks).map Prod.fst = tasks.map (fun t => t.subId)
  ∧ (∀ sid : Nat,
      (∀ t ∈ tasks, t.subId ≠ sid → beh t.handler t.event = beh' t.handler t.event) →
      (runHandlerTasks beh tasks).filter (fun p => p.1 != sid)
        = (runHandlerTasks beh' tasks).filter (fun p => p.1 != sid)) := by
  refine ⟨?_, ?_, ?_, ?_, ?_⟩
  · intro t
    cases h : beh t.handler t.event with
    | ok => exact ⟨ExecLog.success, by simp [executeHandlerSafely, runHandler, h]⟩
    | raises m =>
      exact ⟨ExecLog.errorLogged t.event.type t.event.id t.subId
        (t.event.correlation_id.map fun c => c.value) m,
        by simp [executeHandlerSafely, runHandler, h]⟩
    | cancelled =>
      exact ⟨ExecLog.cancelledSwallowed, by simp [executeHandlerSafely, runHandler, h]⟩
  · intro t m h
    simp [executeHandlerSafely, runHandler, h]
  · intro t h
    simp [executeHandlerSafely, runHandler, h]
  · rw [runHandlerTasks, List.map_map]
    rfl
  · intro sid hagree
    induction tasks with
    | nil => rfl
    | cons hd tl ih =>
      have htl := ih fun t hm h => hagree t (List.mem_cons_of_mem _ hm) h
      by_cases hs : hd.subId = sid
      · have hb : (hd.subId != sid) = false := by simp [hs]
        simp only [runHandlerTasks, List.map_cons, List.filter_cons, hb] at htl ⊢
        simpa [runHandlerTasks] using htl
      · have hb : (hd.subId != sid) = true := by simp [hs]
        have heq : executeHandlerSafely beh hd = executeHandlerSafely beh' hd := by
          have := hagree hd (List.mem_cons_self _ _) hs
          simp [executeHandlerSafely, runHandler, this]
        simp only [runHandlerTasks, List.map_cons, List.filter_cons, hb] at htl ⊢
        simp only [heq]
        simpa [runHandlerTasks] using htl

/-- Witness for C6: handler 10 raising on the ping event is logged, the
sibling task is still invoked, and the sibling's result is identical to
what it is when handler 10 does not raise. -/
theorem handler_errors_witness :
    executeHandlerSafely c6Beh c6Task
      = Except.ok (ExecLog.errorLogged ("ping") 1 0 none ("boom"))
  ∧ (runHandlerTasks c6Beh [c6Task, c6Sibling]).map Prod.fst = [0, 1]
  ∧ (runHandlerTasks c6Beh [c6Task, c6Sibling]).filter (fun p => p.1 != 0)
      = (runHandlerTasks c6BehOk [c6Task, c6Sibling]).filter (fun p => p.1 != 0) :=
  ⟨(handler_errors_isolated_and_logged c6Beh c6BehOk []).2.1 c6Task ("boom") rfl,
   (handler_errors_isolated_and_logged c6Beh c6BehOk [c6Task, c6Sibling]).2.2.2.1,
   (handler_errors_isolated_and_logged c6Beh c6BehOk [c6Task, c6Sibling]).2.2.2.2 0
     (by decide)⟩

end Luna
